import Mathlib

/-!
Verification of the experience-extraction pipeline (`experience_extractor.py`).

The embedding models finite Python floats as rationals (`ℚ`) — with the
non-finite values `inf`, `-inf`, `nan` that `json.loads` and `float()`
can produce represented explicitly by the `PyFloat` type — machine
strings as `String`/`List Char`, and the external collaborators (file
readers, the Gemini model service) as explicit environment records
supplying their observable outputs.  Regular-expression scans from the source are
hand-compiled into deterministic matchers; for the specific patterns used
by the source, greedy matching never needs backtracking, so the matchers
are faithful.  Character classes (`\d`, `\s`, `str.lower`) are modelled at
ASCII granularity.

Rational values inside executable definitions are built with `mkRat` and
integer arithmetic on `Rat.num`/`Rat.den` (the field operations on `ℚ` are
deliberately irreducible and would block kernel evaluation); bridging
lemmas relate these forms to the ordinary `ℚ` operations for the proofs.
-/

/-- Python `int(x)` on a rational: truncation toward zero. -/
def pyInt (q : ℚ) : ℤ := if 0 ≤ q then Rat.floor q else -(Rat.floor (-q))

/-- Python `round(x)` (single argument): round half to even, as an integer.
With `n = ⌊q⌋`, the fractional part is `(q.num - n * q.den) / q.den`, so
comparing it to `1/2` is comparing `2 * (q.num - n * q.den)` to `q.den`. -/
def rhe (q : ℚ) : ℤ :=
  let n := Rat.floor q
  let m := q.num - n * (q.den : ℤ)
  if 2 * m < (q.den : ℤ) then n
  else if (q.den : ℤ) < 2 * m then n + 1
  else if n % 2 = 0 then n else n + 1

/-- Python `round(x, 1)`: round half to even at one decimal place, that is
`round(10 * x) / 10`.  (`mkRat (q.num * 10) q.den` is `10 * q`.) -/
def pyRound1 (q : ℚ) : ℚ := mkRat (rhe (mkRat (q.num * 10) q.den)) 10

/-- A Python float as far as this program can observe one: a finite value
(modelled as a rational) or one of the non-finite values `inf`, `-inf`,
`nan`, which enter only through `json.loads`'s `Infinity`/`-Infinity`/
`NaN` constants and `float()`'s `inf`/`infinity`/`nan` spellings. -/
inductive PyFloat where
  | finite (q : ℚ) : PyFloat
  | inf : PyFloat
  | neginf : PyFloat
  | nan : PyFloat
deriving DecidableEq

/-- Python `round(x, 1)` on a possibly non-finite float: `round` with an
`ndigits` argument returns `inf`, `-inf` and `nan` unchanged (it raises
only in the no-`ndigits` integer form, which this program never uses on
these values). -/
def pyRound1Float : PyFloat → PyFloat
  | PyFloat.finite q => PyFloat.finite (pyRound1 q)
  | PyFloat.inf => PyFloat.inf
  | PyFloat.neginf => PyFloat.neginf
  | PyFloat.nan => PyFloat.nan

/-- Python whitespace (`\s`, `str.strip`) at ASCII granularity. -/
def isPySpace (c : Char) : Bool :=
  c == ' ' || c == '\t' || c == '\n' || c == '\r' || c == '\x0b' || c == '\x0c'

/-- Replace every maximal whitespace run by a single blank:
`re.sub(r'\s+', ' ', s)`.  The flag records whether the previous character
belonged to a run already replaced. -/
def collapseWsAux : Bool → List Char → List Char
  | _, [] => []
  | prev, c :: cs =>
    if isPySpace c then
      if prev then collapseWsAux true cs else ' ' :: collapseWsAux true cs
    else c :: collapseWsAux false cs

/-- Drop trailing Python whitespace. -/
def dropTrailingWs : List Char → List Char
  | [] => []
  | c :: cs =>
    match dropTrailingWs cs with
    | [] => if isPySpace c then [] else [c]
    | r => c :: r

/-- Python `str.strip()`. -/
def pyStripList (l : List Char) : List Char :=
  dropTrailingWs (l.dropWhile isPySpace)

/-- Python `str.strip()` on a `String`. -/
def pyStripStr (s : String) : String := ⟨pyStripList s.data⟩

/-- The whitespace normalization applied by every text reader in the
source: `re.sub(r'\s+', ' ', s).strip()`. -/
def normalizeWs (s : String) : String := ⟨pyStripList (collapseWsAux false s.data)⟩

/-- Numeric value of a list of decimal digits. -/
def digitsToNat (ds : List Char) : ℕ :=
  ds.foldl (fun n c => 10 * n + (c.toNat - '0'.toNat)) 0

/-- Value of the decimal literal `ds.fs` (integer digits, fraction digits):
`(I * 10^k + F) / 10^k`. -/
def decimalVal (ds fs : List Char) : ℚ :=
  mkRat (digitsToNat ds * 10 ^ fs.length + digitsToNat fs) (10 ^ fs.length)

/-- Match the regex `\d+(?:\.\d+)?` at the head of the input; return the
matched numeric value and the remaining input.  Greedy digit runs need no
backtracking here because nothing later in the patterns using this matcher
can consume a digit. -/
def matchNumber (l : List Char) : Option (ℚ × List Char) :=
  let ds := l.takeWhile Char.isDigit
  if ds.isEmpty then none
  else
    let rest := l.dropWhile Char.isDigit
    match rest with
    | '.' :: r2 =>
      let fs := r2.takeWhile Char.isDigit
      if fs.isEmpty then some (decimalVal ds [], rest)
      else some (decimalVal ds fs, r2.dropWhile Char.isDigit)
    | _ => some (decimalVal ds [], rest)

/-- `re.search(r'(\d+(?:\.\d+)?)', raw)`: value of the leftmost numeral. -/
def firstNumeral : List Char → Option ℚ
  | [] => none
  | c :: rest =>
    if c.isDigit then (matchNumber (c :: rest)).map Prod.fst
    else firstNumeral rest

/-- Match the regex `(\d+(?:\.\d+)?)\s*(?:\+)?\s*(?:years?|yrs?)` at the head
of the input; return the captured numeric value and the remaining input. -/
def matchYears (l : List Char) : Option (ℚ × List Char) :=
  match matchNumber l with
  | none => none
  | some (v, r1) =>
    let r2 := r1.dropWhile isPySpace
    let r3 := match r2 with
      | '+' :: t => t
      | _ => r2
    let r4 := r3.dropWhile isPySpace
    match r4 with
    | 'y' :: 'e' :: 'a' :: 'r' :: 's' :: t => some (v, t)
    | 'y' :: 'e' :: 'a' :: 'r' :: t => some (v, t)
    | 'y' :: 'r' :: 's' :: t => some (v, t)
    | 'y' :: 'r' :: t => some (v, t)
    | _ => none

/-- `re.finditer` scan for `matchYears`: leftmost, non-overlapping matches.
The fuel is an upper bound on the number of scan steps; every step either
consumes the matched span (nonempty) or advances one character, so fuel
equal to the input length suffices. -/
def scanYears : ℕ → List Char → List ℚ
  | 0, _ => []
  | _ + 1, [] => []
  | fuel + 1, c :: rest =>
    match matchYears (c :: rest) with
    | some (v, r) => v :: scanYears fuel r
    | none => scanYears fuel rest

/-- The values collected by the `re.finditer` loop of `fallback_years`
(over the lower-cased text). -/
def year_matches (text : String) : List ℚ :=
  let low := text.data.map Char.toLower
  scanYears low.length low

/-- `fallback_years` (the heuristic years estimator): maximum matched
`<number> years/yrs` value of the lower-cased text, rounded to one decimal,
or `0.0` when the text is empty or nothing matches. -/
def fallback_years (text : String) : ℚ :=
  if text = "" then 0
  else
    match year_matches text with
    | [] => 0
    | v :: vs => pyRound1 (vs.foldl max v)

/-- JSON values, as produced by Python's `json.loads`; numbers carry a
`PyFloat` because Python's decoder also accepts the non-finite constants
`Infinity`, `-Infinity` and `NaN`. -/
inductive Json where
  | null : Json
  | bool (b : Bool) : Json
  | num (v : PyFloat) : Json
  | str (s : List Char) : Json
  | arr (elems : List Json) : Json
  | obj (fields : List (List Char × Json)) : Json

/-- JSON insignificant whitespace (exactly space, tab, newline, return). -/
def skipJWs (l : List Char) : List Char :=
  l.dropWhile (fun c => c == ' ' || c == '\t' || c == '\n' || c == '\r')

/-- Hexadecimal digit value. -/
def hexVal (c : Char) : Option ℕ :=
  if '0' ≤ c ∧ c ≤ '9' then some (c.toNat - '0'.toNat)
  else if 'a' ≤ c ∧ c ≤ 'f' then some (c.toNat - 'a'.toNat + 10)
  else if 'A' ≤ c ∧ c ≤ 'F' then some (c.toNat - 'A'.toNat + 10)
  else none

/-- Value of a JSON number from its parsed pieces: sign, integer digits,
fraction digits, exponent sign and digits. -/
def jsonNumVal (neg : Bool) (ds fs : List Char) (eneg : Bool) (es : List Char) : ℚ :=
  let mantissa : ℤ := (digitsToNat ds * 10 ^ fs.length + digitsToNat fs : ℕ)
  let m : ℤ := if neg then -mantissa else mantissa
  let e := digitsToNat es
  if eneg then mkRat m (10 ^ fs.length * 10 ^ e)
  else mkRat (m * 10 ^ e) (10 ^ fs.length)

/-- Parse a JSON numeral (RFC 8259 grammar, as is Python's `json`): an
optional minus sign, `0` or a nonzero-led digit run, an optional fraction,
an optional exponent.  A malformed tail is left unconsumed, exactly as
Python's scanner leaves it for the enclosing context to reject.  The
non-finite constants `Infinity`/`-Infinity`/`NaN`, which Python's decoder
also accepts at value position, are handled in `parseJValue`. -/
def parseJNumber (l : List Char) : Option (Json × List Char) :=
  let (neg, l1) := match l with
    | '-' :: t => (true, t)
    | _ => (false, l)
  match l1 with
  | c :: t =>
    if c == '0' then parseJNumTail neg ['0'] t
    else if c.isDigit then
      parseJNumTail neg (c :: t.takeWhile Char.isDigit) (t.dropWhile Char.isDigit)
    else none
  | [] => none
where
  /-- Fraction and exponent of a JSON number. -/
  parseJNumTail (neg : Bool) (ds : List Char) (r : List Char) : Option (Json × List Char) :=
    let (fs, r1) := match r with
      | '.' :: t =>
        let fs := t.takeWhile Char.isDigit
        if fs.isEmpty then (([] : List Char), r) else (fs, t.dropWhile Char.isDigit)
      | _ => ([], r)
    let (eneg, es, r2) := match r1 with
      | 'e' :: '-' :: t => (true, t.takeWhile Char.isDigit, t.dropWhile Char.isDigit)
      | 'e' :: '+' :: t => (false, t.takeWhile Char.isDigit, t.dropWhile Char.isDigit)
      | 'e' :: t => (false, t.takeWhile Char.isDigit, t.dropWhile Char.isDigit)
      | 'E' :: '-' :: t => (true, t.takeWhile Char.isDigit, t.dropWhile Char.isDigit)
      | 'E' :: '+' :: t => (false, t.takeWhile Char.isDigit, t.dropWhile Char.isDigit)
      | 'E' :: t => (false, t.takeWhile Char.isDigit, t.dropWhile Char.isDigit)
      | _ => (false, ([] : List Char), r1)
    match r1 with
    | 'e' :: _ | 'E' :: _ =>
      if es.isEmpty then some (Json.num (PyFloat.finite (jsonNumVal neg ds fs false [])), r1)
      else some (Json.num (PyFloat.finite (jsonNumVal neg ds fs eneg es)), r2)
    | _ => some (Json.num (PyFloat.finite (jsonNumVal neg ds fs false [])), r1)

/-- Parse a JSON string body (after the opening quote), handling escapes;
unescaped control characters are rejected (Python's strict mode). -/
def parseJString : ℕ → List Char → Option (List Char × List Char)
  | 0, _ => none
  | _ + 1, [] => none
  | fuel + 1, c :: rest =>
    if c == '"' then some ([], rest)
    else if c == '\\' then
      match rest with
      | '"' :: r => (parseJString fuel r).map (fun p => ('"' :: p.1, p.2))
      | '\\' :: r => (parseJString fuel r).map (fun p => ('\\' :: p.1, p.2))
      | '/' :: r => (parseJString fuel r).map (fun p => ('/' :: p.1, p.2))
      | 'b' :: r => (parseJString fuel r).map (fun p => ('\x08' :: p.1, p.2))
      | 'f' :: r => (parseJString fuel r).map (fun p => ('\x0c' :: p.1, p.2))
      | 'n' :: r => (parseJString fuel r).map (fun p => ('\n' :: p.1, p.2))
      | 'r' :: r => (parseJString fuel r).map (fun p => ('\r' :: p.1, p.2))
      | 't' :: r => (parseJString fuel r).map (fun p => ('\t' :: p.1, p.2))
      | 'u' :: h1 :: h2 :: h3 :: h4 :: r =>
        match hexVal h1, hexVal h2, hexVal h3, hexVal h4 with
        | some a, some b, some x, some d =>
          (parseJString fuel r).map
            (fun p => (Char.ofNat (((a * 16 + b) * 16 + x) * 16 + d) :: p.1, p.2))
        | _, _, _, _ => none
      | _ => none
    else if c.toNat < 32 then none
    else (parseJString fuel rest).map (fun p => (c :: p.1, p.2))

mutual

/-- Parse a JSON value (after optional leading whitespace). -/
def parseJValue : ℕ → List Char → Option (Json × List Char)
  | 0, _ => none
  | fuel + 1, l =>
    match skipJWs l with
    | '\x7b' :: rest => parseJObj fuel rest
    | '[' :: rest => parseJArr fuel rest
    | '"' :: rest => (parseJString fuel rest).map (fun p => (Json.str p.1, p.2))
    | 't' :: 'r' :: 'u' :: 'e' :: rest => some (Json.bool true, rest)
    | 'f' :: 'a' :: 'l' :: 's' :: 'e' :: rest => some (Json.bool false, rest)
    | 'n' :: 'u' :: 'l' :: 'l' :: rest => some (Json.null, rest)
    | 'N' :: 'a' :: 'N' :: rest => some (Json.num PyFloat.nan, rest)
    | 'I' :: 'n' :: 'f' :: 'i' :: 'n' :: 'i' :: 't' :: 'y' :: rest =>
      some (Json.num PyFloat.inf, rest)
    | '-' :: 'I' :: 'n' :: 'f' :: 'i' :: 'n' :: 'i' :: 't' :: 'y' :: rest =>
      some (Json.num PyFloat.neginf, rest)
    | rest => parseJNumber rest

/-- Parse a JSON object body (after the opening brace). -/
def parseJObj : ℕ → List Char → Option (Json × List Char)
  | 0, _ => none
  | fuel + 1, l =>
    match skipJWs l with
    | '\x7d' :: rest => some (Json.obj [], rest)
    | rest => parseJMembers fuel rest []

/-- Parse the members of a JSON object (at a key). -/
def parseJMembers : ℕ → List Char → List (List Char × Json) →
    Option (Json × List Char)
  | 0, _, _ => none
  | fuel + 1, l, acc =>
    match skipJWs l with
    | '"' :: rest =>
      match parseJString fuel rest with
      | none => none
      | some (key, r1) =>
        match skipJWs r1 with
        | ':' :: r2 =>
          match parseJValue fuel r2 with
          | none => none
          | some (v, r3) =>
            match skipJWs r3 with
            | ',' :: r4 => parseJMembers fuel r4 (acc ++ [(key, v)])
            | '\x7d' :: r4 => some (Json.obj (acc ++ [(key, v)]), r4)
            | _ => none
        | _ => none
    | _ => none

/-- Parse a JSON array body (after the opening bracket). -/
def parseJArr : ℕ → List Char → Option (Json × List Char)
  | 0, _ => none
  | fuel + 1, l =>
    match skipJWs l with
    | ']' :: rest => some (Json.arr [], rest)
    | rest => parseJElems fuel rest []

/-- Parse the elements of a JSON array (at an element). -/
def parseJElems : ℕ → List Char → List Json → Option (Json × List Char)
  | 0, _, _ => none
  | fuel + 1, l, acc =>
    match parseJValue fuel l with
    | none => none
    | some (v, r1) =>
      match skipJWs r1 with
      | ',' :: r2 => parseJElems fuel r2 (acc ++ [v])
      | ']' :: r2 => some (Json.arr (acc ++ [v]), r2)
      | _ => none

end

/-- Python `json.loads`: parse one value, allowing only trailing
whitespace after it.  The fuel bound exceeds the total number of parser
steps possible on the input. -/
def json_loads (l : List Char) : Option Json :=
  match parseJValue (8 * l.length + 8) l with
  | some (j, rest) => if (skipJWs rest).isEmpty then some j else none
  | none => none

/-- Python `float()` applied to a string: optional sign, then digits with
an optional point and an optional exponent, or one of the
case-insensitive spellings `inf`/`infinity`/`nan`, with surrounding
whitespace allowed.  (Underscored digit groups such as `1_000`, which
Python also accepts, are not modelled; no claim depends on them.) -/
def pyFloatStr (l : List Char) : Option PyFloat :=
  let s := pyStripList l
  let (neg, r1) := match s with
    | '-' :: t => (true, t)
    | '+' :: t => (false, t)
    | _ => (false, s)
  match r1.map Char.toLower with
  | ['i', 'n', 'f'] => some (if neg then PyFloat.neginf else PyFloat.inf)
  | ['i', 'n', 'f', 'i', 'n', 'i', 't', 'y'] =>
    some (if neg then PyFloat.neginf else PyFloat.inf)
  | ['n', 'a', 'n'] => some PyFloat.nan
  | _ =>
    let ds := r1.takeWhile Char.isDigit
    let r2 := r1.dropWhile Char.isDigit
    let (fs, r3) := match r2 with
      | '.' :: t => (t.takeWhile Char.isDigit, t.dropWhile Char.isDigit)
      | _ => (([] : List Char), r2)
    if ds.isEmpty && fs.isEmpty then none
    else
      match r3 with
      | [] => some (PyFloat.finite (jsonNumVal neg ds fs false []))
      | 'e' :: t | 'E' :: t =>
        let (eneg, t1) := match t with
          | '-' :: u => (true, u)
          | '+' :: u => (false, u)
          | _ => (false, t)
        let es := t1.takeWhile Char.isDigit
        let r4 := t1.dropWhile Char.isDigit
        if es.isEmpty || !r4.isEmpty then none
        else some (PyFloat.finite (jsonNumVal neg ds fs eneg es))
      | _ => none

/-- Python `float(x)` on a JSON value; `none` models the `TypeError` or
`ValueError` raised on non-coercible values (`None`, lists, dicts);
non-finite numbers and coercible strings pass through. -/
def pyFloat : Json → Option PyFloat
  | Json.num v => some v
  | Json.bool b => some (PyFloat.finite (if b then 1 else 0))
  | Json.str s => pyFloatStr s
  | _ => none

/-- The characters of the key `"total_years"`. -/
def total_years_key : List Char := "total_years".data

/-- Lookup in a parsed JSON object with Python `dict` semantics: with
duplicate keys, the last binding wins. -/
def dict_get_last (fields : List (List Char × Json)) (key : List Char) : Option Json :=
  match fields with
  | [] => none
  | (k, v) :: rest =>
    match dict_get_last rest key with
    | some w => some w
    | none => if k == key then some v else none

/-- `float(obj.get("total_years", 0.0))` on a parsed JSON value; `none`
models any exception on that line (non-dict value, non-coercible field),
which the source catches and follows with numeral extraction. -/
def coerce_total_years : Json → Option PyFloat
  | Json.obj fields =>
    pyFloat ((dict_get_last fields total_years_key).getD (Json.num (PyFloat.finite 0)))
  | _ => none

/-- `re.search(r'\{.*\}', raw, flags=re.DOTALL)`: the greedy match runs
from the first brace that has a closing brace after it to the last closing
brace; that is exactly the span from the first `{` to the last `}` when
the former precedes the latter, and no match otherwise. -/
def jsonSpan (l : List Char) : Option (List Char) :=
  match l.findIdx? (fun c => c == '\x7b') with
  | none => none
  | some i =>
    match l.reverse.findIdx? (fun c => c == '\x7d') with
    | none => none
    | some jr =>
      let j := l.length - 1 - jr
      if i < j then some ((l.drop i).take (j - i + 1)) else none

/-- The JSON stage of response parsing: the brace span, `json.loads`, and
the `total_years` coercion; `none` whenever the source's except-branches
fall through to numeral extraction. -/
def extract_total_years (raw : String) : Option PyFloat :=
  match jsonSpan raw.data with
  | none => none
  | some s =>
    match json_loads s with
    | none => none
    | some j => coerce_total_years j

/-- The body of the try-block of `ask_gemini_for_years` after a successful
model call: JSON extraction, then first-numeral extraction, then the
heuristic fallback.  A JSON-coerced value is returned through `round`,
which leaves the non-finite values unchanged; the numeral and heuristic
stages always produce finite values. -/
def parse_response (raw text : String) : PyFloat :=
  match extract_total_years raw with
  | some v => pyRound1Float v
  | none =>
    match firstNumeral raw.data with
    | some n => PyFloat.finite (pyRound1 n)
    | none => PyFloat.finite (fallback_years text)

/-- Environment of `ask_gemini_for_years`: today's date (for the prompt),
whether the `google.genai` import succeeded, whether some client
construction variant succeeded, and the model service's response for a
given prompt at a given attempt index (`none` models an exception raised
by `generate_content`). -/
structure ModelEnv where
  today : String
  clientAvailable : Bool
  clientConstructed : Bool
  respond : String → ℕ → Option String

/-- `build_years_prompt`: the instruction template around the (truncated)
resume text, stripped of surrounding whitespace. -/
def build_years_prompt (today : String) (text : String) (max_chars : ℕ := 12000) : String :=
  let t := if text.length > max_chars then ⟨text.data.take max_chars⟩ else text
  pyStripStr ("\nReturn ONLY JSON: \x7b \"total_years\": <float> \x7d.\n\nCompute TOTAL professional work experience:\n- Merge overlapping roles.\n- Convert months into decimal years (1 decimal).\n- Treat \"present/current\" as " ++ today ++ ".\n- If unsure → return 0.0\n- DO NOT output anything except JSON.\n\nResume:\n\"\"\"" ++ t ++ "\"\"\"\n")

/-- The retry loop `for attempt in range(max_retries + 1)`.  The extra
`remaining` argument is the number of loop iterations still available; it
makes the recursion structural and is `max_retries + 1 - attempt`
throughout, so the `0` case is never reached from `ask_gemini_for_years`.
The backoff sleep has no observable effect in this model. -/
def attempt_loop (respond : ℕ → Option String) (text : String) (max_retries : ℕ) :
    ℕ → ℕ → PyFloat
  | _, 0 => PyFloat.finite (fallback_years text)
  | attempt, rem + 1 =>
    match respond attempt with
    | some raw => parse_response raw text
    | none =>
      if attempt < max_retries then attempt_loop respond text max_retries (attempt + 1) rem
      else PyFloat.finite (fallback_years text)

/-- `ask_gemini_for_years`: empty text short-circuits to `0.0`; a missing
key or unavailable or unconstructible client falls back to
`fallback_years`; otherwise the retry loop runs on the model's responses
to the built prompt. -/
def ask_gemini_for_years (env : ModelEnv) (text api_key : String)
    (max_retries : ℕ := 2) : PyFloat :=
  if text = "" then PyFloat.finite 0
  else
    let prompt := build_years_prompt env.today text
    if api_key = "" ∨ env.clientAvailable = false then PyFloat.finite (fallback_years text)
    else if env.clientConstructed = false then PyFloat.finite (fallback_years text)
    else attempt_loop (env.respond prompt) text max_retries 0 (max_retries + 1)

/-- The years/months computation of `convert_decimal_to_human`:
`years = int(d)`; `months` is `(d - years) * 12` truncated (`"floor"`
method) or rounded (any other method); on overflow (`months >= 12`) the
year is incremented and 12 is subtracted from the months.  The product
`(d - years) * 12` is written via `mkRat` on `num`/`den` so that the
definition kernel-evaluates; `frac12_eq` below shows it is that product. -/
def duration_components (decimal_years : ℚ) (method : String) : ℤ × ℤ :=
  let years := pyInt decimal_years
  let frac12 :=
    mkRat ((decimal_years.num - years * (decimal_years.den : ℤ)) * 12) decimal_years.den
  let months := if method = "floor" then pyInt frac12 else rhe frac12
  if 12 ≤ months then (years + 1, months - 12) else (years, months)

/-- The rendering cases of `convert_decimal_to_human` (f-strings do not
pluralize, so `1` renders as `"1 years"`). -/
def render_duration (p : ℤ × ℤ) : String :=
  if p.1 = 0 ∧ p.2 = 0 then "0 years"
  else if p.2 = 0 then toString p.1 ++ " years"
  else if p.1 = 0 then toString p.2 ++ " months"
  else toString p.1 ++ " years " ++ toString p.2 ++ " months"

/-- `convert_decimal_to_human`: decimal years to a human-readable
duration string. -/
def convert_decimal_to_human (decimal_years : ℚ) (method : String := "round") : String :=
  render_duration (duration_components decimal_years method)

/-- One entry of the `results` mapping: the fields the per-document loop
can populate.  (`results[f.name] = {"decimal": ..., "human": ...}` or
`results[f.name] = {"error": str(e)}`.) -/
structure ResultRecord where
  decimal : Option ℚ
  human : Option String
  error : Option String

/-- The per-document pipeline body: on successful text extraction, ask the
model and format the result; on an extraction exception, record the error
string.  A non-finite model result is a failure too: `int()` inside
`convert_decimal_to_human` raises `OverflowError` on an infinity and
`ValueError` on `nan`, caught by the same per-document handler, so the
record carries that exception's message. -/
def process_document (extraction : Except String String) (env : ModelEnv)
    (api_key : String) : ResultRecord :=
  match extraction with
  | Except.ok text =>
    match ask_gemini_for_years env text api_key 2 with
    | PyFloat.finite decimal =>
      { decimal := some decimal,
        human := some (convert_decimal_to_human decimal "round"), error := none }
    | PyFloat.inf =>
      { decimal := none, human := none,
        error := some "cannot convert float infinity to integer" }
    | PyFloat.neginf =>
      { decimal := none, human := none,
        error := some "cannot convert float infinity to integer" }
    | PyFloat.nan =>
      { decimal := none, human := none,
        error := some "cannot convert float NaN to integer" }
  | Except.error e => { decimal := none, human := none, error := some e }

/-- Environment of `extract_text`: availability of the optional reader
dependencies, and the text each external reader yields for a path.
`pdfPages` gives `page.extract_text()` per page (`none` for a page with no
text, replaced by `""` in the source); `docxParagraphs` and `docxCells`
give paragraph texts and row-major table-cell texts; `txtContent` gives
the file's bytes decoded as UTF-8 with undecodable bytes discarded (the
lossy decode never fails, so a plain string input models it). -/
structure ExtractEnv where
  pdfplumberAvailable : Bool
  docxAvailable : Bool
  pdfPages : String → List (Option String)
  docxParagraphs : String → List String
  docxCells : String → List String
  txtContent : String → String

/-- `extract_text_from_pdf`: join per-page text with blanks and normalize;
a missing `pdfplumber` raises. -/
def extract_text_from_pdf (env : ExtractEnv) (path : String) : Except String String :=
  if env.pdfplumberAvailable = false then
    Except.error "Install pdfplumber: pip install pdfplumber"
  else
    Except.ok (normalizeWs (String.intercalate " "
      ((env.pdfPages path).map (fun o => o.getD ""))))

/-- `extract_text_from_docx`: non-blank paragraph texts, then stripped
non-blank cell texts, joined with blanks and normalized; a missing
`python-docx` raises. -/
def extract_text_from_docx (env : ExtractEnv) (path : String) : Except String String :=
  if env.docxAvailable = false then
    Except.error "Install python-docx: pip install python-docx"
  else
    let parts :=
      (env.docxParagraphs path).filter (fun t => t ≠ "" && pyStripStr t ≠ "") ++
        (((env.docxCells path).filter (fun t => t ≠ "" && pyStripStr t ≠ "")).map pyStripStr)
    Except.ok (normalizeWs (String.intercalate " " parts))

/-- `extract_text_from_txt`: decode bytes leniently and normalize. -/
def extract_text_from_txt (env : ExtractEnv) (path : String) : Except String String :=
  Except.ok (normalizeWs (env.txtContent path))

/-- `extract_text`: dispatch on the lower-cased path's suffix; an
unrecognized suffix raises `ValueError`. -/
def extract_text (env : ExtractEnv) (path : String) : Except String String :=
  let p := path.data.map Char.toLower
  if ".pdf".data.isSuffixOf p then extract_text_from_pdf env path
  else if ".docx".data.isSuffixOf p then extract_text_from_docx env path
  else if ".txt".data.isSuffixOf p then extract_text_from_txt env path
  else Except.error "Unsupported file type. Supported: .pdf, .docx, .txt"

/-- Modelled from the claim wording of C4 (a comparison definition, not
source code): one match of the pattern `<number>(optional "+")(optional
space)(years|year|yrs|yr)` — the number, then an optional plus sign
immediately after it, then at most one space, then the unit. -/
def claim_pattern_match (l : List Char) : Option (ℚ × List Char) :=
  match matchNumber l with
  | none => none
  | some (v, r1) =>
    let r2 := match r1 with
      | '+' :: t => t
      | _ => r1
    let r3 := match r2 with
      | ' ' :: t => t
      | _ => r2
    match r3 with
    | 'y' :: 'e' :: 'a' :: 'r' :: 's' :: t => some (v, t)
    | 'y' :: 'e' :: 'a' :: 'r' :: t => some (v, t)
    | 'y' :: 'r' :: 's' :: t => some (v, t)
    | 'y' :: 'r' :: t => some (v, t)
    | _ => none

/-- Modelled from the claim wording of C4: the scan for
`claim_pattern_match`, leftmost and non-overlapping. -/
def claim_scan : ℕ → List Char → List ℚ
  | 0, _ => []
  | _ + 1, [] => []
  | fuel + 1, c :: rest =>
    match claim_pattern_match (c :: rest) with
    | some (v, r) => v :: claim_scan fuel r
    | none => claim_scan fuel rest

/-- Modelled from the claim wording of C4: the estimator the claim
describes — maximum value matched by its pattern, rounded to one decimal,
`0.0` if nothing matches. -/
def claim_fallback_years (text : String) : ℚ :=
  let low := text.data.map Char.toLower
  match claim_scan low.length low with
  | [] => 0
  | v :: vs => pyRound1 (vs.foldl max v)

/-- `Rat.floor` agrees with the `⌊⌋` notation. -/
theorem ratFloor_eq_intFloor (q : ℚ) : (Rat.floor q : ℤ) = ⌊q⌋ :=
  (Rat.floor_def' q).trans Rat.floor_def.symm

/-- `mkRat` over a cast denominator is division. -/
theorem mkRat_eq_div_cast (n : ℤ) (d : ℕ) : mkRat n d = (n : ℚ) / (d : ℚ) := by
  rw [Rat.mkRat_eq_divInt, Rat.divInt_eq_div]
  norm_cast

/-- The numerator-based product in `pyRound1` is `10 * q`. -/
theorem mkRat_num_mul_ten (q : ℚ) : mkRat (q.num * 10) q.den = 10 * q := by
  rw [mkRat_eq_div_cast]
  push_cast
  rw [mul_comm (q.num : ℚ) 10, mul_div_assoc, Rat.num_div_den]

/-- The numerator-based expression in `duration_components` is
`(d - y) * 12`. -/
theorem frac12_eq (d : ℚ) (y : ℤ) :
    mkRat ((d.num - y * (d.den : ℤ)) * 12) d.den = (d - (y : ℚ)) * 12 := by
  have hden : ((d.den : ℚ)) ≠ 0 := by
    exact_mod_cast d.den_nz
  rw [mkRat_eq_div_cast]
  push_cast
  rw [div_eq_iff hden]
  have hnum : ((d.num : ℚ)) = d * (d.den : ℚ) := by
    have h := Rat.num_div_den d
    rw [div_eq_iff hden] at h
    exact h
  rw [hnum]
  ring

/-- For nonnegative arguments, `pyInt` is the floor. -/
theorem pyInt_of_nonneg {q : ℚ} (h : 0 ≤ q) : pyInt q = ⌊q⌋ := by
  rw [pyInt, if_pos h, ratFloor_eq_intFloor]

/-- `rhe` never falls below the floor. -/
theorem floor_le_rhe (q : ℚ) : ⌊q⌋ ≤ rhe q := by
  rw [rhe, ← ratFloor_eq_intFloor]
  split_ifs <;> omega

/-- `rhe` never exceeds the floor plus one. -/
theorem rhe_le_floor_add_one (q : ℚ) : rhe q ≤ ⌊q⌋ + 1 := by
  rw [rhe, ← ratFloor_eq_intFloor]
  split_ifs <;> omega

/-- `rhe` of a nonnegative rational is nonnegative. -/
theorem rhe_nonneg {q : ℚ} (h : 0 ≤ q) : 0 ≤ rhe q :=
  le_trans (Int.floor_nonneg.mpr h) (floor_le_rhe q)

/-- `rhe` of a rational below an integer bound stays at or below it. -/
theorem rhe_le_of_lt {q : ℚ} {z : ℤ} (h : q < (z : ℚ)) : rhe q ≤ z :=
  le_trans (rhe_le_floor_add_one q) (Int.add_one_le_iff.mpr (Int.floor_lt.mpr h))

/-- `pyRound1` as division by ten. -/
theorem pyRound1_eq (q : ℚ) : pyRound1 q = (rhe (10 * q) : ℚ) / 10 := by
  rw [pyRound1, mkRat_num_mul_ten, mkRat_eq_div_cast]
  norm_num

/-- `pyRound1` yields a one-decimal value. -/
theorem pyRound1_one_decimal (q : ℚ) : ∃ z : ℤ, pyRound1 q = (z : ℚ) / 10 :=
  ⟨rhe (10 * q), pyRound1_eq q⟩

/-- `pyRound1` preserves nonnegativity. -/
theorem pyRound1_nonneg {q : ℚ} (h : 0 ≤ q) : 0 ≤ pyRound1 q := by
  rw [pyRound1_eq]
  have h10 : (0 : ℚ) ≤ 10 * q := by linarith
  have := rhe_nonneg h10
  positivity

/-- Zero rounds to zero. -/
theorem pyRound1_zero : pyRound1 0 = 0 := by decide

/-- Decimal-literal values are nonnegative. -/
theorem decimalVal_nonneg (ds fs : List Char) : 0 ≤ decimalVal ds fs := by
  rw [decimalVal, mkRat_eq_div_cast]
  positivity

/-- Values produced by the numeral matcher are nonnegative. -/
theorem matchNumber_nonneg {l : List Char} {v : ℚ} {r : List Char}
    (h : matchNumber l = some (v, r)) : 0 ≤ v := by
  rw [matchNumber] at h
  by_cases hds : (l.takeWhile Char.isDigit).isEmpty
  · rw [if_pos hds] at h
    exact Option.noConfusion h
  · rw [if_neg hds] at h
    dsimp only at h
    split at h
    · next rest r2 heq =>
      by_cases hfs : (List.takeWhile Char.isDigit r2).isEmpty
      · rw [if_pos hfs] at h
        cases h
        exact decimalVal_nonneg _ _
      · rw [if_neg hfs] at h
        cases h
        exact decimalVal_nonneg _ _
    · cases h
      exact decimalVal_nonneg _ _

/-- Values captured by the years matcher are nonnegative. -/
theorem matchYears_nonneg {l : List Char} {v : ℚ} {r : List Char}
    (h : matchYears l = some (v, r)) : 0 ≤ v := by
  rw [matchYears] at h
  split at h
  · simp at h
  · next v' r1 hm =>
    dsimp only at h
    split at h <;> (cases h; all_goals exact matchNumber_nonneg hm)

/-- Every value collected by the years scan is nonnegative. -/
theorem scanYears_nonneg : ∀ (fuel : ℕ) (l : List Char) (v : ℚ),
    v ∈ scanYears fuel l → 0 ≤ v := by
  intro fuel
  induction fuel with
  | zero => intro l v hv; simp [scanYears] at hv
  | succ fuel ih =>
    intro l v hv
    match l with
    | [] => simp [scanYears] at hv
    | c :: rest =>
      rw [scanYears] at hv
      split at hv
      · next w r hm =>
        rcases List.mem_cons.mp hv with h | h
        · exact h ▸ matchYears_nonneg hm
        · exact ih r v h
      · exact ih rest v hv

/-- The leftmost numeral of a string is nonnegative. -/
theorem firstNumeral_nonneg : ∀ {l : List Char} {n : ℚ},
    firstNumeral l = some n → 0 ≤ n := by
  intro l
  induction l with
  | nil => intro n h; simp [firstNumeral] at h
  | cons c rest ih =>
    intro n h
    rw [firstNumeral] at h
    split_ifs at h
    · match hm : matchNumber (c :: rest) with
      | none => rw [hm] at h; simp at h
      | some (v, r) =>
        rw [hm] at h
        simp at h
        exact h ▸ matchNumber_nonneg hm
    · exact ih h

/-- The fold of `max` dominates its starting value. -/
theorem le_foldl_max (v : ℚ) (vs : List ℚ) : v ≤ vs.foldl max v := by
  induction vs generalizing v with
  | nil => exact le_refl v
  | cons w ws ih => exact le_trans (le_max_left v w) (ih (max v w))

/-- The fold of `max` is the starting value or a list element. -/
theorem foldl_max_mem (v : ℚ) (vs : List ℚ) :
    vs.foldl max v = v ∨ vs.foldl max v ∈ vs := by
  induction vs generalizing v with
  | nil => exact Or.inl rfl
  | cons w ws ih =>
    rcases ih (max v w) with h | h
    · rcases max_choice v w with hm | hm
      · exact Or.inl (by rw [List.foldl_cons, h, hm])
      · exact Or.inr (by rw [List.foldl_cons, h, hm]; exact List.mem_cons_self w ws)
    · exact Or.inr (List.mem_cons_of_mem w h)

/-- The fold of `max` dominates every list element. -/
theorem foldl_max_ge {w : ℚ} : ∀ (vs : List ℚ) (v : ℚ), w ∈ vs → w ≤ vs.foldl max v := by
  intro vs
  induction vs with
  | nil => intro v hw; simp at hw
  | cons u us ih =>
    intro v hw
    rw [List.foldl_cons]
    rcases List.mem_cons.mp hw with h | h
    · subst h
      exact le_trans (le_max_right v w) (le_foldl_max (max v w) us)
    · exact ih (max v u) h

/-- The heuristic estimator never returns a negative value. -/
theorem fallback_years_nonneg (text : String) : 0 ≤ fallback_years text := by
  rw [fallback_years]
  split_ifs
  · exact le_refl 0
  · split
    · exact le_refl 0
    · next v vs heq =>
      have hv : 0 ≤ v :=
        scanYears_nonneg _ _ v (heq ▸ List.mem_cons_self v vs)
      exact pyRound1_nonneg (le_trans hv (le_foldl_max v vs))

/-- The heuristic estimator returns a one-decimal value. -/
theorem fallback_years_one_decimal (text : String) :
    ∃ z : ℤ, fallback_years text = (z : ℚ) / 10 := by
  rw [fallback_years]
  split_ifs
  · exact ⟨0, by norm_num⟩
  · split
    · exact ⟨0, by norm_num⟩
    · exact pyRound1_one_decimal _

/-- Every whitespace character in collapsed output is a blank. -/
theorem collapse_allBlank : ∀ (prev : Bool) (l : List Char) (c : Char),
    c ∈ collapseWsAux prev l → isPySpace c = true → c = ' ' := by
  intro prev l
  induction l generalizing prev with
  | nil => intro c hc _; simp [collapseWsAux] at hc
  | cons c0 cs ih =>
    intro c hc hsp
    rw [collapseWsAux] at hc
    by_cases h0 : isPySpace c0 = true
    · rw [if_pos h0] at hc
      by_cases hp : prev = true
      · rw [if_pos hp] at hc
        exact ih true c hc hsp
      · rw [if_neg hp] at hc
        rcases List.mem_cons.mp hc with h | h
        · exact h
        · exact ih true c h hsp
    · rw [if_neg h0] at hc
      rcases List.mem_cons.mp hc with h | h
      · exact absurd (h ▸ hsp) h0
      · exact ih false c h hsp

/-- Output of collapsing with the flag set starts with a non-space. -/
theorem collapse_true_headOk : ∀ (l : List Char) (c : Char),
    (collapseWsAux true l).head? = some c → isPySpace c = false := by
  intro l
  induction l with
  | nil => intro c h; simp [collapseWsAux] at h
  | cons c0 cs ih =>
    intro c h
    rw [collapseWsAux] at h
    by_cases h0 : isPySpace c0 = true
    · rw [if_pos h0, if_pos rfl] at h
      exact ih c h
    · rw [if_neg h0] at h
      simp only [List.head?_cons, Option.some_inj] at h
      subst h
      exact Bool.not_eq_true _ ▸ h0

/-- Collapsed output never contains two adjacent whitespace characters. -/
theorem collapse_chain : ∀ (prev : Bool) (l : List Char),
    List.Chain' (fun a b => ¬(isPySpace a = true ∧ isPySpace b = true))
      (collapseWsAux prev l) := by
  intro prev l
  induction l generalizing prev with
  | nil => simp [collapseWsAux]
  | cons c0 cs ih =>
    rw [collapseWsAux]
    by_cases h0 : isPySpace c0 = true
    · rw [if_pos h0]
      by_cases hp : prev = true
      · rw [if_pos hp]
        exact ih true
      · rw [if_neg hp]
        rw [List.chain'_cons']
        refine ⟨?_, ih true⟩
        intro y hy hcon
        have hns := collapse_true_headOk cs y (Option.mem_def.mp hy)
        rw [hcon.2] at hns
        simp at hns
    · rw [if_neg h0]
      rw [List.chain'_cons']
      refine ⟨?_, ih false⟩
      intro y _ hcon
      exact h0 hcon.1

/-- `dropTrailingWs` yields a prefix of its input. -/
theorem dropTrailingWs_leading : ∀ l : List Char, dropTrailingWs l <+: l := by
  intro l
  induction l with
  | nil => exact ⟨[], rfl⟩
  | cons c cs ih =>
    rw [dropTrailingWs]
    cases h : dropTrailingWs cs with
    | nil =>
      by_cases hc : isPySpace c = true
      · rw [if_pos hc]
        exact ⟨c :: cs, rfl⟩
      · rw [if_neg hc]
        exact ⟨cs, rfl⟩
    | cons d r =>
      rw [h] at ih
      obtain ⟨t, ht⟩ := ih
      exact ⟨t, by rw [List.cons_append, ht]⟩

/-- A nonempty prefix has the same head. -/
theorem isPrefix_head?_eq {l1 l2 : List Char} {a : Char} (h : l1 <+: l2)
    (ha : l1.head? = some a) : l2.head? = some a := by
  obtain ⟨t, ht⟩ := h
  subst ht
  cases l1 with
  | nil => simp at ha
  | cons x xs => simpa using ha

/-- The head surviving `dropWhile isPySpace` is not whitespace. -/
theorem dropWhile_headOk : ∀ (l : List Char) (c : Char),
    (l.dropWhile isPySpace).head? = some c → isPySpace c = false := by
  intro l
  induction l with
  | nil => intro c h; simp at h
  | cons a t ih =>
    intro c h
    by_cases ha : isPySpace a = true
    · rw [List.dropWhile_cons_of_pos ha] at h
      exact ih c h
    · rw [List.dropWhile_cons_of_neg ha] at h
      simp only [List.head?_cons, Option.some_inj] at h
      subst h
      exact Bool.not_eq_true _ ▸ ha

/-- The last character surviving `dropTrailingWs` is not whitespace. -/
theorem dropTrailingWs_lastOk : ∀ (l : List Char) (c : Char),
    (dropTrailingWs l).getLast? = some c → isPySpace c = false := by
  intro l
  induction l with
  | nil => intro c h; simp [dropTrailingWs] at h
  | cons c0 cs ih =>
    intro c h
    rw [dropTrailingWs] at h
    cases hcs : dropTrailingWs cs with
    | nil =>
      rw [hcs] at h
      by_cases h0 : isPySpace c0 = true
      · rw [if_pos h0] at h
        simp at h
      · rw [if_neg h0] at h
        simp only [List.getLast?_singleton, Option.some_inj] at h
        subst h
        exact Bool.not_eq_true _ ▸ h0
    | cons d r =>
      rw [hcs] at h
      rw [List.getLast?_cons_cons] at h
      rw [← hcs] at h
      exact ih c h

/-- Collapsing is the identity on text whose whitespace characters are all
blanks, never adjacent, and not leading. -/
theorem collapse_id : ∀ (n : ℕ) (l : List Char), l.length ≤ n →
    (∀ c ∈ l, isPySpace c = true → c = ' ') →
    List.Chain' (fun a b => ¬(isPySpace a = true ∧ isPySpace b = true)) l →
    (∀ c, l.head? = some c → isPySpace c = false) →
    collapseWsAux false l = l ∧ collapseWsAux true l = l := by
  intro n
  induction n with
  | zero =>
    intro l hl _ _ _
    have : l = [] := List.eq_nil_of_length_eq_zero (Nat.le_zero.mp hl)
    subst this
    exact ⟨rfl, rfl⟩
  | succ n ih =>
    intro l hl hblank hchain hhead
    match l with
    | [] => exact ⟨rfl, rfl⟩
    | c0 :: cs =>
      have h0 : isPySpace c0 = false := hhead c0 rfl
      have h0' : ¬(isPySpace c0 = true) := by simp [h0]
      have key : collapseWsAux false cs = cs := by
        match cs with
        | [] => rfl
        | d :: cs' =>
          by_cases hd : isPySpace d = true
          · have hd' : d = ' ' :=
              hblank d (List.mem_cons_of_mem c0 (List.mem_cons_self d cs')) hd
            rw [collapseWsAux, if_pos hd, if_neg (by simp)]
            have hhead' : ∀ c, cs'.head? = some c → isPySpace c = false := by
              intro c hc
              match cs' with
              | [] => simp at hc
              | e :: t =>
                simp only [List.head?_cons, Option.some_inj] at hc
                subst hc
                have hR := (List.chain'_cons.mp (List.chain'_cons.mp hchain).2).1
                by_cases he : isPySpace e = true
                · exact absurd ⟨hd, he⟩ hR
                · exact Bool.not_eq_true _ ▸ he
            have hrec : collapseWsAux true cs' = cs' := by
              refine (ih cs' ?_ ?_ ?_ hhead').2
              · have := hl
                simp only [List.length_cons] at this ⊢
                omega
              · intro c hc hsp
                exact hblank c
                  (List.mem_cons_of_mem c0 (List.mem_cons_of_mem d hc)) hsp
              · exact (List.chain'_cons.mp hchain).2.tail
            rw [hrec, hd']
          · have hhead' : ∀ c, (d :: cs').head? = some c → isPySpace c = false := by
              intro c hc
              simp only [List.head?_cons, Option.some_inj] at hc
              subst hc
              exact Bool.not_eq_true _ ▸ hd
            refine (ih (d :: cs') ?_ ?_ ?_ hhead').1
            · have := hl
              simp only [List.length_cons] at this ⊢
              omega
            · intro c hc hsp
              exact hblank c (List.mem_cons_of_mem c0 hc) hsp
            · exact (List.chain'_cons.mp hchain).2
      constructor
      · rw [collapseWsAux, if_neg h0', key]
      · rw [collapseWsAux, if_neg h0', key]

/-- `dropWhile` is the identity when the head is not whitespace. -/
theorem dropWhile_id_of_headOk {l : List Char}
    (h : ∀ c, l.head? = some c → isPySpace c = false) :
    l.dropWhile isPySpace = l := by
  cases l with
  | nil => rfl
  | cons a t =>
    have := h a rfl
    exact List.dropWhile_cons_of_neg (by simp [this])

/-- `dropTrailingWs` is the identity when the last character is not
whitespace. -/
theorem dropTrailingWs_id_of_lastOk : ∀ l : List Char,
    (∀ c, l.getLast? = some c → isPySpace c = false) → dropTrailingWs l = l := by
  intro l
  induction l with
  | nil => intro _; rfl
  | cons c0 cs ih =>
    intro h
    cases cs with
    | nil =>
      have h0 := h c0 rfl
      rw [dropTrailingWs]
      simp [dropTrailingWs, h0]
    | cons d cs' =>
      have hrec : dropTrailingWs (d :: cs') = d :: cs' := by
        refine ih ?_
        intro c hc
        exact h c (by rw [List.getLast?_cons_cons]; exact hc)
      rw [dropTrailingWs, hrec]

/-- Normalizing already-normalized text is a no-op (the shared helper
behind the idempotence and normalized-output facts). -/
theorem normalizeWs_norm (s : String) : normalizeWs (normalizeWs s) = normalizeWs s := by
  simp only [normalizeWs]
  set t := pyStripList (collapseWsAux false s.data) with ht
  have htw : t <+: (collapseWsAux false s.data).dropWhile isPySpace := by
    rw [ht, pyStripList]
    exact dropTrailingWs_leading _
  have hblank : ∀ c ∈ t, isPySpace c = true → c = ' ' := by
    intro c hc hsp
    have h1 : c ∈ (collapseWsAux false s.data).dropWhile isPySpace := htw.subset hc
    have h2 : c ∈ collapseWsAux false s.data := (List.dropWhile_suffix _).subset h1
    exact collapse_allBlank false s.data c h2 hsp
  have hchain :
      List.Chain' (fun a b => ¬(isPySpace a = true ∧ isPySpace b = true)) t := by
    have hw := (collapse_chain false s.data).suffix (List.dropWhile_suffix isPySpace)
    obtain ⟨u, hu⟩ := htw
    rw [← hu] at hw
    exact (List.chain'_append.mp hw).1
  have hhead : ∀ c, t.head? = some c → isPySpace c = false := by
    intro c hc
    exact dropWhile_headOk _ c (isPrefix_head?_eq htw hc)
  have hlast : ∀ c, t.getLast? = some c → isPySpace c = false := by
    intro c hc
    rw [ht, pyStripList] at hc
    exact dropTrailingWs_lastOk _ c hc
  have hc : collapseWsAux false t = t :=
    (collapse_id t.length t le_rfl hblank hchain hhead).1
  rw [hc, pyStripList, dropWhile_id_of_headOk hhead,
    dropTrailingWs_id_of_lastOk t hlast]

/-- If every attempt before `k` fails and attempt `k` yields `raw`, the
retry loop returns the parse of `raw` (no retry on parse results). -/
theorem attempt_loop_first_success (f : ℕ → Option String) (text : String) (mr : ℕ) :
    ∀ (rem a k : ℕ) (raw : String), a ≤ k → k ≤ mr → k < a + rem →
      (∀ j, a ≤ j → j < k → f j = none) → f k = some raw →
      attempt_loop f text mr a rem = parse_response raw text := by
  intro rem
  induction rem with
  | zero =>
    intro a k raw h1 _ h3 _ _
    omega
  | succ rem ih =>
    intro a k raw h1 h2 h3 hnone hk
    rw [attempt_loop]
    by_cases hak : a = k
    · subst hak
      rw [hk]
    · have hfa : f a = none := hnone a le_rfl (by omega)
      rw [hfa, if_pos (show a < mr by omega)]
      exact ih (a + 1) k raw (by omega) h2 (by omega)
        (fun j hj1 hj2 => hnone j (by omega) hj2) hk

/-- If every attempt from `a` through `mr` fails, the retry loop falls
back to the heuristic. -/
theorem attempt_loop_exhausted (f : ℕ → Option String) (text : String) (mr : ℕ) :
    ∀ (rem a : ℕ), a ≤ mr → (∀ j, a ≤ j → j ≤ mr → f j = none) →
      attempt_loop f text mr a rem = PyFloat.finite (fallback_years text) := by
  intro rem
  induction rem with
  | zero =>
    intro a _ _
    rw [attempt_loop]
  | succ rem ih =>
    intro a ha hnone
    rw [attempt_loop, hnone a le_rfl ha]
    by_cases h : a < mr
    · rw [if_pos h]
      exact ih (a + 1) (by omega) (fun j h1 h2 => hnone j (by omega) h2)
    · rw [if_neg h]

/-- On the live path (nonempty text, key present, client available and
constructed), `ask_gemini_for_years` is the retry loop on the built
prompt's responses. -/
theorem ask_gemini_run (env : ModelEnv) (text api_key : String) (mr : ℕ)
    (htext : text ≠ "") (hkey : api_key ≠ "") (hca : env.clientAvailable = true)
    (hcc : env.clientConstructed = true) :
    ask_gemini_for_years env text api_key mr =
      attempt_loop (env.respond (build_years_prompt env.today text)) text mr 0 (mr + 1) := by
  rw [ask_gemini_for_years, if_neg htext]
  dsimp only
  rw [if_neg (by simp [hkey, hca]), if_neg (by simp [hcc])]

/-- Every finite value a parsed response can take is one-decimal. -/
theorem parse_response_one_decimal (raw text : String) (q : ℚ)
    (h : parse_response raw text = PyFloat.finite q) : ∃ z : ℤ, q = (z : ℚ) / 10 := by
  rw [parse_response] at h
  split at h
  · next v _ =>
    match v, h with
    | PyFloat.finite w, h =>
      injection h with h'
      obtain ⟨z, hz⟩ := pyRound1_one_decimal w
      exact ⟨z, h' ▸ hz⟩
  · split at h
    · injection h with h'
      obtain ⟨z, hz⟩ := pyRound1_one_decimal _
      exact ⟨z, h' ▸ hz⟩
    · injection h with h'
      obtain ⟨z, hz⟩ := fallback_years_one_decimal text
      exact ⟨z, h' ▸ hz⟩

/-- A parsed response is finite and nonnegative provided any JSON-coerced
`total_years` value in it is finite and nonnegative. -/
theorem parse_response_nonneg (raw text : String)
    (hsafe : ∀ v, extract_total_years raw = some v →
      ∃ q, v = PyFloat.finite q ∧ 0 ≤ q) :
    ∃ q, parse_response raw text = PyFloat.finite q ∧ 0 ≤ q := by
  rw [parse_response]
  split
  · next v hv =>
    obtain ⟨q0, hq0, hq0n⟩ := hsafe v hv
    subst hq0
    exact ⟨pyRound1 q0, rfl, pyRound1_nonneg hq0n⟩
  · split
    · next n hn =>
      exact ⟨pyRound1 n, rfl, pyRound1_nonneg (firstNumeral_nonneg hn)⟩
    · exact ⟨fallback_years text, rfl, fallback_years_nonneg text⟩

/-- Every finite value the retry loop can produce is one-decimal, for
every response sequence. -/
theorem attempt_loop_one_decimal (f : ℕ → Option String) (text : String) (mr : ℕ) :
    ∀ (rem a : ℕ) (q : ℚ), attempt_loop f text mr a rem = PyFloat.finite q →
      ∃ z : ℤ, q = (z : ℚ) / 10 := by
  intro rem
  induction rem with
  | zero =>
    intro a q h
    rw [attempt_loop] at h
    injection h with h'
    obtain ⟨z, hz⟩ := fallback_years_one_decimal text
    exact ⟨z, h' ▸ hz⟩
  | succ rem ih =>
    intro a q h
    rw [attempt_loop] at h
    split at h
    · next raw _ => exact parse_response_one_decimal raw text q h
    · split_ifs at h
      · exact ih (a + 1) q h
      · injection h with h'
        obtain ⟨z, hz⟩ := fallback_years_one_decimal text
        exact ⟨z, h' ▸ hz⟩

/-- The retry loop yields a finite nonnegative value when every
JSON-coerced `total_years` value in the responses is finite and
nonnegative. -/
theorem attempt_loop_finite_nonneg (f : ℕ → Option String) (text : String) (mr : ℕ)
    (hsafe : ∀ k raw, f k = some raw → ∀ v, extract_total_years raw = some v →
      ∃ q, v = PyFloat.finite q ∧ 0 ≤ q) :
    ∀ (rem a : ℕ), ∃ q, attempt_loop f text mr a rem = PyFloat.finite q ∧ 0 ≤ q := by
  intro rem
  induction rem with
  | zero =>
    intro a
    rw [attempt_loop]
    exact ⟨fallback_years text, rfl, fallback_years_nonneg text⟩
  | succ rem ih =>
    intro a
    rw [attempt_loop]
    cases hfa : f a with
    | some raw => exact parse_response_nonneg raw text (hsafe a raw hfa)
    | none =>
      by_cases h : a < mr
      · rw [if_pos h]
        exact ih (a + 1)
      · rw [if_neg h]
        exact ⟨fallback_years text, rfl, fallback_years_nonneg text⟩

/-- The fractional-part product of `duration_components` is nonnegative
and below twelve for `0 ≤ d`. -/
theorem fract_mul_twelve_bounds (d : ℚ) :
    0 ≤ (d - (⌊d⌋ : ℚ)) * 12 ∧ (d - (⌊d⌋ : ℚ)) * 12 < 12 := by
  have h1 : 0 ≤ d - (⌊d⌋ : ℚ) := by
    rw [Int.self_sub_floor]
    exact Int.fract_nonneg d
  have h2 : d - (⌊d⌋ : ℚ) < 1 := by
    rw [Int.self_sub_floor]
    exact Int.fract_lt_one d
  constructor
  · positivity
  · nlinarith

/-- `duration_components` in `"round"` mode: floor years, months rounded
from the fractional part, carry sets the months to zero. -/
theorem duration_components_round (d : ℚ) (hd : 0 ≤ d) :
    duration_components d "round" =
      if 12 ≤ rhe ((d - (⌊d⌋ : ℚ)) * 12) then (⌊d⌋ + 1, 0)
      else (⌊d⌋, rhe ((d - (⌊d⌋ : ℚ)) * 12)) := by
  rw [duration_components]
  rw [if_neg (by decide : ¬("round" = "floor"))]
  rw [pyInt_of_nonneg hd, frac12_eq d ⌊d⌋]
  have hlt : (d - (⌊d⌋ : ℚ)) * 12 < ((12 : ℤ) : ℚ) := by
    exact_mod_cast (fract_mul_twelve_bounds d).2
  have hle : rhe ((d - (⌊d⌋ : ℚ)) * 12) ≤ 12 := rhe_le_of_lt hlt
  split_ifs with h
  · have : rhe ((d - (⌊d⌋ : ℚ)) * 12) = 12 := le_antisymm hle h
    rw [this]
    norm_num
  · rfl

/-- `duration_components` in `"floor"` mode: floor years, months floored
from the fractional part; the carry can never fire. -/
theorem duration_components_floor (d : ℚ) (hd : 0 ≤ d) :
    duration_components d "floor" =
      if 12 ≤ ⌊(d - (⌊d⌋ : ℚ)) * 12⌋ then (⌊d⌋ + 1, 0)
      else (⌊d⌋, ⌊(d - (⌊d⌋ : ℚ)) * 12⌋) := by
  rw [duration_components]
  rw [if_pos rfl]
  rw [pyInt_of_nonneg hd, frac12_eq d ⌊d⌋]
  rw [pyInt_of_nonneg (fract_mul_twelve_bounds d).1]
  have hlt : ⌊(d - (⌊d⌋ : ℚ)) * 12⌋ < 12 := by
    rw [Int.floor_lt]
    exact_mod_cast (fract_mul_twelve_bounds d).2
  rw [if_neg (by omega), if_neg (by omega)]

/-- C2 (confirmed): for every `d ≥ 0`, `convert_decimal_to_human` takes
whole years as the integer part of `d` (its floor) and months as the
fractional part times 12 — floored in `"floor"` mode, rounded to nearest
(Python's half-to-even) otherwise — carrying `months = 12` into one more
year with months reset to zero; rendering follows the four literal cases
with no singular pluralization (`1` gives `"1 years"`), and
`convert_decimal_to_human 2.999 "round" = "3 years"`. -/
theorem convert_decimal_to_human_spec (d : ℚ) (hd : 0 ≤ d) :
    (duration_components d "floor" =
      if 12 ≤ ⌊(d - (⌊d⌋ : ℚ)) * 12⌋ then (⌊d⌋ + 1, 0)
      else (⌊d⌋, ⌊(d - (⌊d⌋ : ℚ)) * 12⌋)) ∧
    (duration_components d "round" =
      if 12 ≤ rhe ((d - (⌊d⌋ : ℚ)) * 12) then (⌊d⌋ + 1, 0)
      else (⌊d⌋, rhe ((d - (⌊d⌋ : ℚ)) * 12))) ∧
    (∀ y m : ℤ, render_duration (y, m) =
      if y = 0 ∧ m = 0 then "0 years"
      else if m = 0 then toString y ++ " years"
      else if y = 0 then toString m ++ " months"
      else toString y ++ " years " ++ toString m ++ " months") ∧
    (∀ mth : String,
      convert_decimal_to_human d mth = render_duration (duration_components d mth)) ∧
    convert_decimal_to_human 1 "round" = "1 years" ∧
    convert_decimal_to_human (mkRat 2999 1000) "round" = "3 years" := by
  refine ⟨duration_components_floor d hd, duration_components_round d hd,
    fun y m => rfl, fun mth => rfl, by decide, by decide⟩

/-- Witness for C2 at `d = 3/2`. -/
theorem convert_decimal_to_human_spec_witness :
    (0 : ℚ) ≤ mkRat 3 2 ∧
    convert_decimal_to_human (mkRat 2999 1000) "round" = "3 years" :=
  ⟨by decide, (convert_decimal_to_human_spec (mkRat 3 2) (by decide)).2.2.2.2.2⟩

/-- C6 (confirmed): for every `d ≥ 0`, the `"round"`-mode duration has a
months component in `[0, 11]`, a years component at least `⌊d⌋`, and the
rendered string is exactly the rendering of those components. -/
theorem duration_round_bounds (d : ℚ) (hd : 0 ≤ d) :
    0 ≤ (duration_components d "round").2 ∧
    (duration_components d "round").2 ≤ 11 ∧
    ⌊d⌋ ≤ (duration_components d "round").1 ∧
    convert_decimal_to_human d "round" = render_duration (duration_components d "round") := by
  have h := duration_components_round d hd
  have hnn : 0 ≤ rhe ((d - (⌊d⌋ : ℚ)) * 12) :=
    rhe_nonneg (fract_mul_twelve_bounds d).1
  rw [h]
  split_ifs with h12
  · refine ⟨le_refl 0, ?_, ?_, ?_⟩
    · show (0 : ℤ) ≤ 11
      omega
    · show ⌊d⌋ ≤ ⌊d⌋ + 1
      omega
    · rw [convert_decimal_to_human, h, if_pos h12]
  · refine ⟨hnn, ?_, le_refl ⌊d⌋, ?_⟩
    · show rhe ((d - (⌊d⌋ : ℚ)) * 12) ≤ 11
      omega
    · rw [convert_decimal_to_human, h, if_neg h12]

/-- Witness for C6 at `d = 5/2`. -/
theorem duration_round_bounds_witness :
    (0 : ℚ) ≤ mkRat 5 2 ∧
    (0 ≤ (duration_components (mkRat 5 2) "round").2 ∧
      (duration_components (mkRat 5 2) "round").2 ≤ 11 ∧
      ⌊(mkRat 5 2 : ℚ)⌋ ≤ (duration_components (mkRat 5 2) "round").1 ∧
      convert_decimal_to_human (mkRat 5 2) "round" =
        render_duration (duration_components (mkRat 5 2) "round")) :=
  ⟨by decide, duration_round_bounds (mkRat 5 2) (by decide)⟩

/-- C7 (confirmed): every record produced by the per-document pipeline is
exclusively a success carrying a decimal and exactly its `"round"`-mode
rendering, or a failure carrying only an error string. -/
theorem result_record_shape (extraction : Except String String) (env : ModelEnv)
    (api_key : String) :
    (∃ d, process_document extraction env api_key =
      { decimal := some d, human := some (convert_decimal_to_human d "round"),
        error := none }) ∨
    (∃ e, process_document extraction env api_key =
      { decimal := none, human := none, error := some e }) := by
  cases extraction with
  | ok text =>
    cases h : ask_gemini_for_years env text api_key 2 with
    | finite d => exact Or.inl ⟨d, by rw [process_document, h]⟩
    | inf =>
      exact Or.inr ⟨"cannot convert float infinity to integer", by rw [process_document, h]⟩
    | neginf =>
      exact Or.inr ⟨"cannot convert float infinity to integer", by rw [process_document, h]⟩
    | nan =>
      exact Or.inr ⟨"cannot convert float NaN to integer", by rw [process_document, h]⟩
  | error e => exact Or.inr ⟨e, rfl⟩

/-- C9 (confirmed): whitespace normalization is idempotent. -/
theorem whitespace_normalization_idempotent (s : String) :
    normalizeWs (normalizeWs s) = normalizeWs s :=
  normalizeWs_norm s

/-- C5 (confirmed): with an empty key, an unavailable client library, or a
failed client construction, `ask_gemini_for_years` is exactly the
heuristic estimate; and empty text short-circuits to `0.0` for any
credential and environment. -/
theorem ask_gemini_fallback_paths (env : ModelEnv) (text api_key : String)
    (retries : ℕ) :
    ((api_key = "" ∨ env.clientAvailable = false ∨ env.clientConstructed = false) →
      ask_gemini_for_years env text api_key retries = PyFloat.finite (fallback_years text)) ∧
    ask_gemini_for_years env "" api_key retries = PyFloat.finite 0 := by
  constructor
  · intro h
    by_cases htext : text = ""
    · subst htext
      rw [ask_gemini_for_years, if_pos rfl, fallback_years, if_pos rfl]
    · rw [ask_gemini_for_years, if_neg htext]
      dsimp only
      by_cases h1 : api_key = "" ∨ env.clientAvailable = false
      · rw [if_pos h1]
      · rw [if_neg h1]
        have h2 : env.clientConstructed = false := by
          rcases h with h | h | h
          · exact absurd (Or.inl h) h1
          · exact absurd (Or.inr h) h1
          · exact h
        rw [if_pos h2]
  · rw [ask_gemini_for_years, if_pos rfl]

/-- Witness for C5: unavailable client, nonempty and empty text. -/
theorem ask_gemini_fallback_paths_witness :
    ask_gemini_for_years ⟨"2024-01-01", false, false, fun _ _ => none⟩ "5 yrs" "k" 2 =
      PyFloat.finite (fallback_years "5 yrs") ∧
    ask_gemini_for_years ⟨"2024-01-01", false, false, fun _ _ => none⟩ "" "k" 2 =
      PyFloat.finite 0 :=
  ⟨(ask_gemini_fallback_paths ⟨"2024-01-01", false, false, fun _ _ => none⟩
      "5 yrs" "k" 2).1 (Or.inr (Or.inl rfl)),
    (ask_gemini_fallback_paths ⟨"2024-01-01", false, false, fun _ _ => none⟩
      "" "k" 2).2⟩

/-- Counterexample to C1 as stated: a model response whose JSON
`total_years` is negative makes `ask_gemini_for_years` resolve to a
negative value, and the `Infinity` constant (which `json.loads` accepts
and `round(x, 1)` passes through) makes it resolve to a non-finite one. -/
theorem ask_gemini_negative_output :
    ask_gemini_for_years
      ⟨"2024-01-01", true, true, fun _ _ => some "\x7b\"total_years\": -3\x7d"⟩
      "x" "k" 2 = PyFloat.finite (-3) ∧ (-3 : ℚ) < 0 ∧
    ask_gemini_for_years
      ⟨"2024-01-01", true, true, fun _ _ => some "\x7b\"total_years\": Infinity\x7d"⟩
      "x" "k" 2 = PyFloat.inf :=
  ⟨by decide, by decide, by decide⟩

/-- C1 (amended): `ask_gemini_for_years` never fails; for every input
text, credential and model response, every finite value it resolves to
has one-decimal precision (unconditionally); and it resolves to a finite
nonnegative value provided every model response's JSON-coerced
`total_years` value is finite and nonnegative — the code guards the JSON
path against neither negative values nor `json.loads`'s `Infinity`/`NaN`
constants, which `round(x, 1)` passes through. -/
theorem ask_gemini_one_decimal_nonneg (env : ModelEnv) (text api_key : String)
    (retries : ℕ) :
    (∀ q : ℚ, ask_gemini_for_years env text api_key retries = PyFloat.finite q →
      ∃ z : ℤ, q = (z : ℚ) / 10) ∧
    ((∀ k raw, env.respond (build_years_prompt env.today text) k = some raw →
        ∀ v, extract_total_years raw = some v → ∃ q, v = PyFloat.finite q ∧ 0 ≤ q) →
      ∃ q, ask_gemini_for_years env text api_key retries = PyFloat.finite q ∧ 0 ≤ q) := by
  constructor
  · intro q h
    by_cases htext : text = ""
    · subst htext
      rw [ask_gemini_for_years, if_pos rfl] at h
      injection h with h'
      exact ⟨0, by rw [← h']; norm_num⟩
    · rw [ask_gemini_for_years, if_neg htext] at h
      dsimp only at h
      by_cases h1 : api_key = "" ∨ env.clientAvailable = false
      · rw [if_pos h1] at h
        injection h with h'
        obtain ⟨z, hz⟩ := fallback_years_one_decimal text
        exact ⟨z, h' ▸ hz⟩
      · rw [if_neg h1] at h
        by_cases h2 : env.clientConstructed = false
        · rw [if_pos h2] at h
          injection h with h'
          obtain ⟨z, hz⟩ := fallback_years_one_decimal text
          exact ⟨z, h' ▸ hz⟩
        · rw [if_neg h2] at h
          exact attempt_loop_one_decimal _ text retries (retries + 1) 0 q h
  · intro hsafe
    by_cases htext : text = ""
    · subst htext
      rw [ask_gemini_for_years, if_pos rfl]
      exact ⟨0, rfl, le_refl 0⟩
    · rw [ask_gemini_for_years, if_neg htext]
      dsimp only
      by_cases h1 : api_key = "" ∨ env.clientAvailable = false
      · rw [if_pos h1]
        exact ⟨fallback_years text, rfl, fallback_years_nonneg text⟩
      · rw [if_neg h1]
        by_cases h2 : env.clientConstructed = false
        · rw [if_pos h2]
          exact ⟨fallback_years text, rfl, fallback_years_nonneg text⟩
        · rw [if_neg h2]
          exact attempt_loop_finite_nonneg _ text retries hsafe (retries + 1) 0

/-- Witness for C1 (amended): a successful response with a finite
nonnegative `total_years` of `2.5`, discharging the proviso at its actual
JSON-coerced value. -/
theorem ask_gemini_one_decimal_nonneg_witness :
    ∃ q, ask_gemini_for_years
        ⟨"2024-01-01", true, true, fun _ _ => some "\x7b\"total_years\": 2.5\x7d"⟩
        "x" "k" 2 = PyFloat.finite q ∧ 0 ≤ q :=
  (ask_gemini_one_decimal_nonneg
      ⟨"2024-01-01", true, true, fun _ _ => some "\x7b\"total_years\": 2.5\x7d"⟩
      "x" "k" 2).2
    (by
      intro k raw h v hv
      cases h
      have hev : extract_total_years "\x7b\"total_years\": 2.5\x7d" =
          some (PyFloat.finite (mkRat 5 2)) := by decide
      rw [hev] at hv
      cases hv
      exact ⟨mkRat 5 2, rfl, by decide⟩)

/-- Counterexample to C3 as stated: in the response
`{"total_years": null} 7` the brace span parses as JSON, yet the
coercion of `total_years` fails and the client falls through to numeral
extraction, returning `7.0` instead of a value from the JSON field. -/
theorem parse_order_counterexample :
    (json_loads ("\x7b\"total_years\": null\x7d").data).isSome = true ∧
    jsonSpan ("\x7b\"total_years\": null\x7d 7").data =
      some ("\x7b\"total_years\": null\x7d").data ∧
    extract_total_years "\x7b\"total_years\": null\x7d 7" = none ∧
    ask_gemini_for_years
      ⟨"2024-01-01", true, true, fun _ _ => some "\x7b\"total_years\": null\x7d 7"⟩
      "x" "k" 2 = PyFloat.finite 7 :=
  ⟨by rfl, by decide, by decide, by decide⟩

/-- C3 (amended): on the live path the client's result is the parse of
the first successful attempt's response (retry/backoff applies only to
outright call failures; exhausted retries fall back to the heuristic),
and response parsing is ordered: a JSON span whose `total_years` field
coerces to a float — including `json.loads`'s `Infinity`/`NaN` constants
and `float()`'s `inf`/`nan` string spellings — is returned through
`round(x, 1)`, which rounds finite values to one decimal and passes
non-finite ones through; if the span is absent, unparseable, or its field
fails to coerce, the first numeral of the raw response is returned
rounded; failing that, the heuristic is returned with no further
retries. -/
theorem parse_order_spec (env : ModelEnv) (text api_key : String) (retries : ℕ)
    (htext : text ≠ "") (hkey : api_key ≠ "") (hca : env.clientAvailable = true)
    (hcc : env.clientConstructed = true) :
    (∀ k raw, k ≤ retries →
      (∀ j, j < k → env.respond (build_years_prompt env.today text) j = none) →
      env.respond (build_years_prompt env.today text) k = some raw →
      ask_gemini_for_years env text api_key retries = parse_response raw text) ∧
    ((∀ j, j ≤ retries → env.respond (build_years_prompt env.today text) j = none) →
      ask_gemini_for_years env text api_key retries = PyFloat.finite (fallback_years text)) ∧
    (∀ raw v, extract_total_years raw = some v →
      parse_response raw text = pyRound1Float v) ∧
    (∀ raw n, extract_total_years raw = none → firstNumeral raw.data = some n →
      parse_response raw text = PyFloat.finite (pyRound1 n)) ∧
    (∀ raw, extract_total_years raw = none → firstNumeral raw.data = none →
      parse_response raw text = PyFloat.finite (fallback_years text)) := by
  refine ⟨?_, ?_, ?_, ?_, ?_⟩
  · intro k raw hk hnone hsome
    rw [ask_gemini_run env text api_key retries htext hkey hca hcc]
    exact attempt_loop_first_success _ text retries (retries + 1) 0 k raw
      (Nat.zero_le k) hk (by omega) (fun j _ hj => hnone j hj) hsome
  · intro hall
    rw [ask_gemini_run env text api_key retries htext hkey hca hcc]
    exact attempt_loop_exhausted _ text retries (retries + 1) 0 (Nat.zero_le retries)
      (fun j _ hj => hall j hj)
  · intro raw v hv
    rw [parse_response, hv]
  · intro raw n h1 h2
    rw [parse_response, h1, h2]
  · intro raw h1 h2
    rw [parse_response, h1, h2]

/-- Witness for C3 (amended): first attempt succeeds, result is its
parse. -/
theorem parse_order_spec_witness :
    ask_gemini_for_years
      ⟨"2024-01-01", true, true, fun _ _ => some "\x7b\"total_years\": 4\x7d"⟩
      "5 yrs" "k" 2 = parse_response "\x7b\"total_years\": 4\x7d" "5 yrs" :=
  (parse_order_spec ⟨"2024-01-01", true, true, fun _ _ => some "\x7b\"total_years\": 4\x7d"⟩
      "5 yrs" "k" 2 (by decide) (by decide) rfl rfl).1 0 _ (Nat.zero_le 2)
    (fun j hj => absurd hj (Nat.not_lt_zero j)) rfl

/-- C10 (confirmed): a successful response whose JSON span parses to an
object without `total_years` makes the client return `0.0` (the coercion
default `obj.get("total_years", 0.0)`), not the numeral or heuristic
fallback. -/
theorem json_default_total_years (env : ModelEnv) (text api_key : String)
    (retries : ℕ) (raw : String) (s : List Char) (fields : List (List Char × Json))
    (htext : text ≠ "") (hkey : api_key ≠ "") (hca : env.clientAvailable = true)
    (hcc : env.clientConstructed = true)
    (hresp : env.respond (build_years_prompt env.today text) 0 = some raw)
    (hspan : jsonSpan raw.data = some s)
    (hload : json_loads s = some (Json.obj fields))
    (hmiss : dict_get_last fields total_years_key = none) :
    ask_gemini_for_years env text api_key retries = PyFloat.finite 0 := by
  rw [ask_gemini_run env text api_key retries htext hkey hca hcc]
  rw [attempt_loop_first_success _ text retries (retries + 1) 0 0 raw le_rfl
    (Nat.zero_le retries) (by omega) (fun j h1 h2 => absurd h2 (by omega)) hresp]
  have hext : extract_total_years raw = some (PyFloat.finite 0) := by
    rw [extract_total_years, hspan]
    dsimp only
    rw [hload]
    dsimp only
    rw [coerce_total_years, hmiss]
    rfl
  rw [parse_response, hext]
  show PyFloat.finite (pyRound1 0) = PyFloat.finite 0
  rw [pyRound1_zero]

/-- Witness for C10: response `{"a": 1}` yields `0.0` although the text
mentions nine years. -/
theorem json_default_total_years_witness :
    ask_gemini_for_years
      ⟨"2024-01-01", true, true, fun _ _ => some "\x7b\"a\": 1\x7d"⟩
      "9 yrs" "k" 2 = PyFloat.finite 0 :=
  json_default_total_years
    ⟨"2024-01-01", true, true, fun _ _ => some "\x7b\"a\": 1\x7d"⟩
    "9 yrs" "k" 2 "\x7b\"a\": 1\x7d" ("\x7b\"a\": 1\x7d").data
    [("a".data, Json.num (PyFloat.finite 1))]
    (by decide) (by decide) rfl rfl rfl (by rfl) (by rfl) (by rfl)

/-- Counterexample to C4 as stated: the source pattern allows whitespace
between the number and the plus sign (`\s*(?:\+)?\s*`), which the claim's
pattern (`<number>(optional "+")(optional space)(unit)`) does not, so on
`"3 + years"` the code finds `3.0` while the claimed pattern finds
nothing. -/
theorem fallback_pattern_counterexample :
    fallback_years "3 + years" = 3 ∧ claim_fallback_years "3 + years" = 0 :=
  ⟨by decide, by decide⟩

/-- C4 (amended): `fallback_years` is a pure total function that never
returns a negative value: it lower-cases the text, scans for
`<number>(optional whitespace)(optional "+")(optional whitespace)
(years|year|yrs|yr)` matches, and returns the maximum matched value
rounded to one decimal — whenever any match exists, the result IS the
rounded fold-maximum of the matches, which belongs to the match list and
dominates it — and `0.0` when there is no match; on the claim's examples
it gives `5.0` and `0.0`. -/
theorem fallback_years_spec (text : String) :
    0 ≤ fallback_years text ∧
    (year_matches text = [] → fallback_years text = 0) ∧
    (∀ v vs, year_matches text = v :: vs →
      fallback_years text = pyRound1 (vs.foldl max v) ∧
      vs.foldl max v ∈ v :: vs ∧
      ∀ w ∈ v :: vs, w ≤ vs.foldl max v) ∧
    fallback_years "I have 5 years and 3 yrs experience" = 5 ∧
    fallback_years "no experience mentioned" = 0 := by
  refine ⟨fallback_years_nonneg text, ?_, ?_, by decide, by decide⟩
  · intro hm
    rw [fallback_years]
    split_ifs
    · rfl
    · rw [hm]
  · intro v vs hm
    refine ⟨?_, ?_, ?_⟩
    · rw [fallback_years]
      split_ifs with ht
      · have h0 : year_matches text = [] := by
          subst ht
          rfl
        rw [h0] at hm
        exact List.noConfusion hm
      · rw [hm]
    · rcases foldl_max_mem v vs with h | h
      · rw [h]
        exact List.mem_cons_self v vs
      · exact List.mem_cons_of_mem v h
    · intro w hw
      rcases List.mem_cons.mp hw with h | h
      · subst h
        exact le_foldl_max w vs
      · exact foldl_max_ge vs v h

/-- Witness for C4 (amended): a text with matches 2 and 7, whose result
is the rounded fold-maximum. -/
theorem fallback_years_spec_witness :
    year_matches "2 yrs and 7 years" = [2, 7] ∧
    fallback_years "2 yrs and 7 years" = pyRound1 (List.foldl max 2 [7]) :=
  ⟨by decide, ((fallback_years_spec "2 yrs and 7 years").2.2.1 2 [7] (by decide)).1⟩

/-- Two suffixes of one list, neither a suffix of the other, cannot
coexist. -/
theorem suffix_incompatible {a b l : List Char} (ha : a.isSuffixOf l = true)
    (hb : b.isSuffixOf l = true) (hab : a.isSuffixOf b = false)
    (hba : b.isSuffixOf a = false) : False := by
  have h1 := List.isSuffixOf_iff_suffix.mp ha
  have h2 := List.isSuffixOf_iff_suffix.mp hb
  rcases List.suffix_or_suffix_of_suffix h1 h2 with h | h
  · have hc := List.isSuffixOf_iff_suffix.mpr h
    rw [hab] at hc
    exact absurd hc (by decide)
  · have hc := List.isSuffixOf_iff_suffix.mpr h
    rw [hba] at hc
    exact absurd hc (by decide)

/-- Counterexample to C8 as stated: `"r.pdf"` has a supported extension,
yet with the PDF reader dependency missing `extract_text` fails (with the
missing-dependency error) instead of returning normalized text. -/
theorem extract_text_missing_dependency :
    (".pdf".data.isSuffixOf ("r.pdf".data.map Char.toLower)) = true ∧
    extract_text ⟨false, true, fun _ => [], fun _ => [], fun _ => [], fun _ => ""⟩
      "r.pdf" = Except.error "Install pdfplumber: pip install pdfplumber" :=
  ⟨by decide, by rfl⟩

/-- C8 (amended): `extract_text` dispatches on the lower-cased path
suffix; it fails with the unsupported-format error exactly when the
suffix is none of `.pdf`, `.docx`, `.txt`; for a supported suffix it
returns normalized text whenever the format's reader dependency is
available (`.txt` needs none), and a missing dependency gives the
missing-dependency error instead. -/
theorem extract_text_dispatch (env : ExtractEnv) (path : String) :
    (extract_text env path =
        Except.error "Unsupported file type. Supported: .pdf, .docx, .txt" ↔
      (".pdf".data.isSuffixOf (path.data.map Char.toLower) = false ∧
        ".docx".data.isSuffixOf (path.data.map Char.toLower) = false ∧
        ".txt".data.isSuffixOf (path.data.map Char.toLower) = false)) ∧
    (".pdf".data.isSuffixOf (path.data.map Char.toLower) = true →
      env.pdfplumberAvailable = true →
      ∃ s, extract_text env path = Except.ok s ∧ normalizeWs s = s) ∧
    (".docx".data.isSuffixOf (path.data.map Char.toLower) = true →
      env.docxAvailable = true →
      ∃ s, extract_text env path = Except.ok s ∧ normalizeWs s = s) ∧
    (".txt".data.isSuffixOf (path.data.map Char.toLower) = true →
      ∃ s, extract_text env path = Except.ok s ∧ normalizeWs s = s) := by
  refine ⟨?_, ?_, ?_, ?_⟩
  · rw [extract_text]
    by_cases h1 : ".pdf".data.isSuffixOf (path.data.map Char.toLower) = true
    · rw [if_pos h1]
      constructor
      · intro h
        rw [extract_text_from_pdf] at h
        split_ifs at h
        injection h with h'
        exact absurd h' (by decide)
      · rintro ⟨hp, -, -⟩
        rw [h1] at hp
        exact absurd hp (by decide)
    · rw [if_neg h1]
      by_cases h2 : ".docx".data.isSuffixOf (path.data.map Char.toLower) = true
      · rw [if_pos h2]
        constructor
        · intro h
          rw [extract_text_from_docx] at h
          split_ifs at h
          injection h with h'
          exact absurd h' (by decide)
        · rintro ⟨-, hp, -⟩
          rw [h2] at hp
          exact absurd hp (by decide)
      · rw [if_neg h2]
        by_cases h3 : ".txt".data.isSuffixOf (path.data.map Char.toLower) = true
        · rw [if_pos h3]
          constructor
          · intro h
            rw [extract_text_from_txt] at h
            exact Except.noConfusion h
          · rintro ⟨-, -, hp⟩
            rw [h3] at hp
            exact absurd hp (by decide)
        · rw [if_neg h3]
          constructor
          · intro _
            exact ⟨Bool.not_eq_true _ ▸ h1, Bool.not_eq_true _ ▸ h2,
              Bool.not_eq_true _ ▸ h3⟩
          · intro _
            rfl
  · intro hp hav
    rw [extract_text, if_pos hp, extract_text_from_pdf, if_neg (by simp [hav])]
    exact ⟨_, rfl, normalizeWs_norm _⟩
  · intro hd hav
    have hnp : ".pdf".data.isSuffixOf (path.data.map Char.toLower) = false := by
      cases hp : ".pdf".data.isSuffixOf (path.data.map Char.toLower) with
      | false => rfl
      | true => exact (suffix_incompatible hp hd (by decide) (by decide)).elim
    rw [extract_text, if_neg (by simp [hnp]), if_pos hd, extract_text_from_docx,
      if_neg (by simp [hav])]
    exact ⟨_, rfl, normalizeWs_norm _⟩
  · intro ht
    have hnp : ".pdf".data.isSuffixOf (path.data.map Char.toLower) = false := by
      cases hp : ".pdf".data.isSuffixOf (path.data.map Char.toLower) with
      | false => rfl
      | true => exact (suffix_incompatible hp ht (by decide) (by decide)).elim
    have hnd : ".docx".data.isSuffixOf (path.data.map Char.toLower) = false := by
      cases hp : ".docx".data.isSuffixOf (path.data.map Char.toLower) with
      | false => rfl
      | true => exact (suffix_incompatible hp ht (by decide) (by decide)).elim
    rw [extract_text, if_neg (by simp [hnp]), if_neg (by simp [hnd]), if_pos ht,
      extract_text_from_txt]
    exact ⟨_, rfl, normalizeWs_norm _⟩

/-- Witness for C8 (amended): an unsupported `.csv` errors, a `.txt`
succeeds with normalized text. -/
theorem extract_text_dispatch_witness :
    extract_text ⟨true, true, fun _ => [], fun _ => [], fun _ => [], fun _ => "x"⟩
      "a.csv" = Except.error "Unsupported file type. Supported: .pdf, .docx, .txt" ∧
    (∃ s, extract_text ⟨true, true, fun _ => [], fun _ => [], fun _ => [], fun _ => "x"⟩
      "b.txt" = Except.ok s ∧ normalizeWs s = s) :=
  ⟨(extract_text_dispatch
      ⟨true, true, fun _ => [], fun _ => [], fun _ => [], fun _ => "x"⟩ "a.csv").1.mpr
      ⟨by decide, by decide, by decide⟩,
    (extract_text_dispatch
      ⟨true, true, fun _ => [], fun _ => [], fun _ => [], fun _ => "x"⟩ "b.txt").2.2.2
      (by decide)⟩
